import Mathlib

/-!
Shallow embedding of the logging module of the QingJing-agent repository
(devlop_home/logger.py) and verification of its specification.

Modelling conventions:
- Python values that can appear as log arguments or tool-result payloads are
  modelled by the inductive type PyVal below (strings, ints, floats, bools,
  None, lists, dicts with string keys, in insertion order).  Dict keys in all
  payloads of this module are strings, so keys are modelled as String.
- A Python float is carried as its repr string: CPython prints a float as the
  shortest decimal that round-trips, so a float parsed from a JSON literal
  already in shortest form prints back as that literal.  All float literals
  reaching this module are of that form.
- Machine effects (socket emit, console write, file append) are modelled as an
  explicit effect trace; a SinkWorld record says which of the three external
  operations would fail, and a raised Python exception is an Option PyExn in
  the result.  The timestamp is an input, since datetime.now is an effect.
- Python exceptions inside the simplifier are modelled with Except; the
  operations that could raise (indexing, last-element access) return Except
  and everything is threaded through, mirroring the try block of the source.
-/

namespace AIC

/-- Python-like dynamic value, the universe of log arguments and payloads. -/
inductive PyVal where
  | str : String → PyVal
  | int : Int → PyVal
  | float : String → PyVal
  | bool : Bool → PyVal
  | null : PyVal
  | list : List PyVal → PyVal
  | dict : List (String × PyVal) → PyVal

/-- Python repr of a string: quotes around the content.  CPython escapes
quotes, backslashes and nonprintables inside; the payloads of this module
contain none of those, and none of the claims depend on them. -/
def pyQuote (s : String) : String := "\x27" ++ s ++ "\x27"

mutual

/-- Python repr for the modelled values.  For int, float, bool, None, list and
dict, CPython str and repr coincide; str differs only on strings. -/
def pyRepr : PyVal → String
  | .str s => pyQuote s
  | .int n => toString n
  | .float r => r
  | .bool b => if b then "True" else "False"
  | .null => "None"
  | .list l => "[" ++ String.intercalate ", " (pyReprList l) ++ "]"
  | .dict d => "\x7b" ++ String.intercalate ", " (pyReprDict d) ++ "\x7d"

def pyReprList : List PyVal → List String
  | [] => []
  | v :: vs => pyRepr v :: pyReprList vs

def pyReprDict : List (String × PyVal) → List String
  | [] => []
  | (k, v) :: kvs => (pyQuote k ++ ": " ++ pyRepr v) :: pyReprDict kvs

end

/-- Python str() on the modelled values. -/
def pyStr : PyVal → String
  | .str s => s
  | v => pyRepr v

/-- Python membership test needle in haystack, prefix step, on char lists. -/
def startsWithL (needle hay : List Char) : Bool :=
  match needle, hay with
  | [], _ => true
  | _ :: _, [] => false
  | n :: ns, h :: hs => n == h && startsWithL ns hs

/-- Python substring containment (the in operator on str), on char lists. -/
def containsSubL (needle hay : List Char) : Bool :=
  match hay with
  | [] => needle.isEmpty
  | _ :: hs => startsWithL needle hay || containsSubL needle hs

/-- Python substring containment: containsSub needle hay models needle in hay. -/
def containsSub (needle hay : String) : Bool :=
  containsSubL needle.toList hay.toList

/-- Python str.split with a one-character separator, on char lists.  Like
CPython, the result always has at least one element and an input ending in the
separator yields a trailing empty piece. -/
def splitCharL (c : Char) : List Char → List (List Char)
  | [] => [[]]
  | x :: xs =>
    if x == c then [] :: splitCharL c xs
    else
      match splitCharL c xs with
      | [] => [[x]]
      | g :: gs => (x :: g) :: gs

/-- Python str.split with a one-character separator. -/
def pySplit (c : Char) (s : String) : List String :=
  (splitCharL c s.toList).map String.mk

/-- Whitespace as stripped by Python str.strip (ASCII part; the payloads of
this module contain no exotic unicode whitespace). -/
def isPyWs (c : Char) : Bool :=
  [' ', '\t', '\n', '\r', '\x0b', '\x0c'].contains c

/-- Python str.strip(). -/
def pyStrip (s : String) : String :=
  String.mk (((s.toList.dropWhile isPyWs).reverse.dropWhile isPyWs).reverse)

/-- Python str.endswith, on char lists via reversal. -/
def pyEndsWith (suffix s : String) : Bool :=
  startsWithL suffix.toList.reverse s.toList.reverse

/-! ### JSON parsing (the json.loads dependency)

The module calls json.loads on string payloads.  The parser below follows the
JSON grammar: objects, arrays, strings with the simple escapes, numbers,
true, false, null, with surrounding whitespace allowed and trailing garbage
rejected.  The unicode escape form is not modelled (no payload of this module
uses it); an input using it surfaces as a parse failure.  A JSON number
without fraction and exponent becomes a Python int; otherwise a float whose
repr is the normalized literal (faithful to CPython for literals already in
shortest round-trip form, which covers the payloads of this module). -/

def isJDigit (c : Char) : Bool := c.isDigit

def jWs (c : Char) : Bool := [' ', '\t', '\n', '\r'].contains c

def skipWs (cs : List Char) : List Char := cs.dropWhile jWs

def escChar : Char → Option Char
  | '"' => some '"'
  | '\\' => some '\\'
  | '/' => some '/'
  | 'b' => some (Char.ofNat 8)
  | 'f' => some (Char.ofNat 12)
  | 'n' => some (Char.ofNat 10)
  | 'r' => some (Char.ofNat 13)
  | 't' => some (Char.ofNat 9)
  | _ => Option.none

/-- Parse the body of a JSON string, the opening quote already consumed. -/
def parseJStringL : List Char → Option (List Char × List Char)
  | [] => Option.none
  | c :: rest =>
    if c == '"' then some ([], rest)
    else if c == '\\' then
      match rest with
      | [] => Option.none
      | e :: rest2 =>
        match escChar e with
        | Option.none => Option.none
        | some ec =>
          match parseJStringL rest2 with
          | Option.none => Option.none
          | some (s, r) => some (ec :: s, r)
    else
      match parseJStringL rest with
      | Option.none => Option.none
      | some (s, r) => some (c :: s, r)

def stripTrailingZeros (s : List Char) : List Char :=
  (s.reverse.dropWhile (fun c => c == '0')).reverse

def natOfDigits (ds : List Char) : Nat :=
  ds.foldl (fun n c => n * 10 + (c.toNat - 48)) 0

def intOfDigits (neg : Bool) (ds : List Char) : PyVal :=
  .int (if neg then -(natOfDigits ds : Int) else (natOfDigits ds : Int))

/-- Repr string for a float parsed from a JSON literal.  Without an exponent
the fractional part is normalized by dropping trailing zeros, keeping one
digit; with an exponent the literal is kept (see the caveat in the section
comment). -/
def floatLitRepr (neg : Bool) (ip : List Char) (fracOpt : Option (List Char))
    (expOpt : Option (List Char)) : String :=
  match expOpt with
  | some es =>
    (if neg then "-" else "") ++ String.mk ip ++
      (match fracOpt with | some f => "." ++ String.mk f | Option.none => "") ++
      "e" ++ String.mk es
  | Option.none =>
    let f := stripTrailingZeros (fracOpt.getD [])
    let f := if f.isEmpty then ['0'] else f
    (if neg then "-" else "") ++ String.mk ip ++ "." ++ String.mk f

/-- Parse an exponent after the e marker: optional sign then digits. -/
def parseExpPart (cs : List Char) : Option (List Char × List Char) :=
  let (sgn, cs1) : List Char × List Char :=
    match cs with
    | '+' :: r => (['+'], r)
    | '-' :: r => (['-'], r)
    | _ => ([], cs)
  let (ds, cs2) := cs1.span isJDigit
  if ds.isEmpty then Option.none else some (sgn ++ ds, cs2)

def parseNumber (cs : List Char) : Option (PyVal × List Char) :=
  let (neg, cs1) : Bool × List Char :=
    match cs with
    | '-' :: rest => (true, rest)
    | _ => (false, cs)
  let (ip, cs2) := cs1.span isJDigit
  if ip.isEmpty then Option.none
  else if 1 < ip.length && ip.headD ' ' == '0' then Option.none
  else
    match cs2 with
    | '.' :: rest =>
      let (f, cs3) := rest.span isJDigit
      if f.isEmpty then Option.none
      else
        match cs3 with
        | ec :: rest2 =>
          if ec == 'e' || ec == 'E' then
            match parseExpPart rest2 with
            | Option.none => Option.none
            | some (es, cs4) => some (.float (floatLitRepr neg ip (some f) (some es)), cs4)
          else some (.float (floatLitRepr neg ip (some f) Option.none), cs3)
        | [] => some (.float (floatLitRepr neg ip (some f) Option.none), cs3)
    | ec :: rest2 =>
      if ec == 'e' || ec == 'E' then
        match parseExpPart rest2 with
        | Option.none => Option.none
        | some (es, cs4) => some (.float (floatLitRepr neg ip Option.none (some es)), cs4)
      else some (intOfDigits neg ip, cs2)
    | [] => some (intOfDigits neg ip, cs2)

def parseLiteralKw (cs : List Char) : Option (PyVal × List Char) :=
  match cs with
  | 't' :: 'r' :: 'u' :: 'e' :: r => some (.bool true, r)
  | 'f' :: 'a' :: 'l' :: 's' :: 'e' :: r => some (.bool false, r)
  | 'n' :: 'u' :: 'l' :: 'l' :: r => some (.null, r)
  | _ => Option.none

/-- Insert a key into an object under construction the way a Python dict does:
replace in place on a duplicate key, else append. -/
def upsertKV (acc : List (String × PyVal)) (k : String) (v : PyVal) :
    List (String × PyVal) :=
  if acc.any (fun kv => kv.1 == k) then
    acc.map (fun kv => if kv.1 == k then (kv.1, v) else kv)
  else acc ++ [(k, v)]

mutual

def parseVal : Nat → List Char → Option (PyVal × List Char)
  | 0, _ => Option.none
  | Nat.succ fuel, cs =>
    match skipWs cs with
    | [] => Option.none
    | c :: rest =>
      if c == '\x7b' then parseObj fuel rest
      else if c == '[' then parseArr fuel rest
      else if c == '"' then
        match parseJStringL rest with
        | some (s, r) => some (PyVal.str (String.mk s), r)
        | Option.none => Option.none
      else if c == '-' || isJDigit c then parseNumber (c :: rest)
      else parseLiteralKw (c :: rest)

def parseObj : Nat → List Char → Option (PyVal × List Char)
  | 0, _ => Option.none
  | Nat.succ fuel, cs =>
    match skipWs cs with
    | '\x7d' :: r => some (PyVal.dict [], r)
    | cs1 => parseMembers fuel cs1 []

def parseMembers : Nat → List Char → List (String × PyVal) →
    Option (PyVal × List Char)
  | 0, _, _ => Option.none
  | Nat.succ fuel, cs, acc =>
    match cs with
    | '"' :: rest =>
      match parseJStringL rest with
      | Option.none => Option.none
      | some (k, r1) =>
        match skipWs r1 with
        | ':' :: r2 =>
          match parseVal fuel r2 with
          | Option.none => Option.none
          | some (v, r3) =>
            match skipWs r3 with
            | ',' :: r4 => parseMembers fuel (skipWs r4) (upsertKV acc (String.mk k) v)
            | '\x7d' :: r4 => some (PyVal.dict (upsertKV acc (String.mk k) v), r4)
            | _ => Option.none
        | _ => Option.none
    | _ => Option.none

def parseArr : Nat → List Char → Option (PyVal × List Char)
  | 0, _ => Option.none
  | Nat.succ fuel, cs =>
    match skipWs cs with
    | ']' :: r => some (PyVal.list [], r)
    | cs1 => parseElems fuel cs1 []

def parseElems : Nat → List Char → List PyVal → Option (PyVal × List Char)
  | 0, _, _ => Option.none
  | Nat.succ fuel, cs, acc =>
    match parseVal fuel cs with
    | Option.none => Option.none
    | some (v, r1) =>
      match skipWs r1 with
      | ',' :: r2 => parseElems fuel r2 (acc ++ [v])
      | ']' :: r2 => some (PyVal.list (acc ++ [v]), r2)
      | _ => Option.none

end

/-- json.loads: parse a complete JSON document with generous fuel (nesting and
member counts are bounded by the input length); reject trailing garbage. -/
def json_loads (s : String) : Option PyVal :=
  match parseVal (2 * s.length + 4) s.toList with
  | some (v, rest) => if (skipWs rest).isEmpty then some v else Option.none
  | Option.none => Option.none

/-! ### Level registry (logger.py lines 31 and 71 to 73) -/

/-- The fixed severity scale, least significant first (source line 31). -/
def LEVELS : List String :=
  ["TRACE", "DEBUG", "INFO", "WARNING", "ERROR", "SUCCESS", "SPECIAL"]

/-- Position of a name in LEVELS; Option.none models the ValueError that
list.index raises on an unknown name. -/
def levelIdx (l : String) : Option Nat :=
  LEVELS.findIdx? (fun s => s == l)

/-- Rank of a known severity name (total helper used only in statements). -/
def levelRank (l : String) : Nat :=
  LEVELS.findIdx (fun s => s == l)

/-- should_log from the source: LEVELS.index level is at least
LEVELS.index target_level; Option.none models the ValueError on an unknown
name. -/
def should_log (level target_level : String) : Option Bool :=
  match levelIdx level, levelIdx target_level with
  | some i, some j => some (decide (j ≤ i))
  | _, _ => Option.none

/-! ### Value extractor (logger.py lines 140 to 191) -/

/-- isinstance of a value against the tuple str, int, float in Python terms;
a Python bool is an instance of int, so it passes. -/
def isScalarPy : PyVal → Bool
  | .str _ => true
  | .int _ => true
  | .float _ => true
  | .bool _ => true
  | _ => false

def SUFFIXES : List String := ["_sum", "_avg", "_min", "_max", "_count"]

/-- The aggregate-key scan of the source: for each suffix in order, scan all
entries for a key ending in it (keys are strings here, so the isinstance
guard of the source is always satisfied). -/
def findSuffixVal : List String → List (String × PyVal) → Option PyVal
  | [], _ => Option.none
  | sfx :: rest, d =>
    match d.find? (fun kv => pyEndsWith sfx kv.1) with
    | some kv => some kv.2
    | Option.none => findSuffixVal rest d

/-- The body of _extract_value_from_tool_result once the payload is known to
be already-parsed data (the part of the source after the json step). -/
def extractFromData (data : PyVal) : String :=
  match data with
  | .dict d0 =>
    let d : List (String × PyVal) :=
      match List.lookup "output" d0 with
      | some (PyVal.dict o) => o
      | _ => d0
    match List.lookup "result" d with
    | some (PyVal.dict r) =>
      (match List.lookup "by_seconds" r with
      | some v => pyStr v
      | Option.none =>
        match List.lookup "seconds" r with
        | some v => pyStr v
        | Option.none =>
          match r.find? (fun kv => isScalarPy kv.2) with
          | some kv => pyStr kv.2
          | Option.none => pyStr (.dict r))
    | some rv => pyStr rv
    | Option.none =>
      match findSuffixVal SUFFIXES d with
      | some v => pyStr v
      | Option.none =>
        match d with
        | [kv] => pyStr kv.2
        | _ => pyStr (.dict d)
  | v => pyStr v

/-- _extract_value_from_tool_result from the source: a string payload is first
run through json.loads and returned unchanged on parse failure. -/
def _extract_value_from_tool_result (function_result : PyVal) : String :=
  match function_result with
  | .str s =>
    match json_loads s with
    | Option.none => s
    | some data => extractFromData data
  | v => extractFromData v

/-! ### Value extractor restated from the spec (section 4.5)

The following definitions follow the numbered step list of the spec rather
than the shape of the source, and exist only to be compared with the source
translation above. -/

/-- Spec step 4: the result rule, preferring a by_seconds key, then a seconds
key, then the first scalar-valued entry in iteration order, else the
stringified sub-mapping; a scalar result is stringified directly. -/
def specResultRule (d : List (String × PyVal)) : Option String :=
  (List.lookup "result" d).map (fun r =>
    match r with
    | .dict rm =>
      ((((List.lookup "by_seconds" rm).or (List.lookup "seconds" rm)).or
        ((rm.find? (fun kv => isScalarPy kv.2)).map (fun kv => kv.2))).map pyStr).getD
        (pyStr (.dict rm))
    | v => pyStr v)

/-- Spec step 5: scan for a key ending in one of the aggregate suffixes,
suffixes tried in their fixed order across all keys. -/
def specAggregateRule (d : List (String × PyVal)) : Option String :=
  SUFFIXES.findSome? (fun sfx =>
    (d.find? (fun kv => pyEndsWith sfx kv.1)).map (fun kv => pyStr kv.2))

/-- Spec step 6: a single-entry mapping yields its value, stringified. -/
def specSingleRule (d : List (String × PyVal)) : Option String :=
  match d with
  | [kv] => some (pyStr kv.2)
  | _ => Option.none

/-- Spec steps 2, 3 and 4 to 7 on already-parsed data: non-mappings are
stringified, a mapping-valued output key is descended one level, then the
rules apply in order with the stringified mapping as last resort. -/
def specOnParsed (v : PyVal) : String :=
  match v with
  | .dict d0 =>
    let d : List (String × PyVal) :=
      match List.lookup "output" d0 with
      | some (PyVal.dict o) => o
      | _ => d0
    (((specResultRule d).or (specAggregateRule d)).or (specSingleRule d)).getD
      (pyStr (.dict d))
  | v => pyStr v

/-- Spec steps 1 to 7: the Value Extractor as the spec words it. -/
def valueExtractorSpec (payload : PyVal) : String :=
  match payload with
  | .str s =>
    match json_loads s with
    | Option.none => s
    | some v => specOnParsed v
  | v => specOnParsed v

/-! ### Simplifier (logger.py lines 194 to 252) -/

/-- join_list from the source: elements joined by a full-width comma; ints and
floats via str, strings kept, anything else via best-effort str.  The inner
try of the source cannot fire for these value shapes and is not modelled. -/
def join_list (l : List PyVal) : String :=
  String.intercalate "，" (l.map (fun v =>
    match v with
    | .int n => toString n
    | .float r => r
    | .str s => s
    | v => pyStr v))

/-- The generic two-at-a-time walk at the end of _simplify_for_frontend: a
string immediately followed by a list renders as label plus joined list,
consuming both; a standalone scalar renders as its str; any other value is
dropped. -/
def genericParts : List PyVal → List String
  | [] => []
  | .str s :: .list l :: rest2 => (s ++ join_list l) :: genericParts rest2
  | a :: rest =>
    if isScalarPy a then pyStr a :: genericParts rest
    else genericParts rest

/-- Python exceptions relevant to this module. -/
inductive PyExn where
  | ioErr
  | keyErr
  | valueErr
  | indexErr
deriving DecidableEq, Repr

/-- Python indexing lst at i, raising IndexError when out of range. -/
def pyGet (l : List PyVal) (i : Nat) : Except PyExn PyVal :=
  match l.get? i with
  | some v => .ok v
  | Option.none => .error PyExn.indexErr

/-- The try block of _simplify_for_frontend, with the operations that could
raise threaded through Except.  The head is args 0 as a string (str applied
when it is not one); the second isinstance check of the source on head is
always true and is dropped. -/
def trySimplify (args : List PyVal) : Except PyExn String :=
  match pyGet args 0 with
  | .error e => .error e
  | .ok a0 =>
    let head := match a0 with | .str s => s | v => pyStr v
    let generic : Except PyExn String :=
      .ok (String.intercalate " " (genericParts args))
    if containsSub "【工具函数" head && containsSub "执行结果】" head then
      if 1 < args.length then
        match pyGet args 1 with
        | .error e => .error e
        | .ok a1 => .ok (head ++ _extract_value_from_tool_result a1)
      else .ok (head ++ "")
    else if containsSub "【原子问题答案】" head then
      if 1 < args.length then
        match pyGet args 1 with
        | .error e => .error e
        | .ok a1 =>
          let text := pyStr a1
          if containsSub "调用" text && containsSub "参数" text &&
              containsSub "。" text then
            match (pySplit '。' text).getLast? with
            | some last => .ok (head ++ pyStrip last)
            | Option.none => .error PyExn.indexErr
          else .ok (head ++ text)
      else generic
    else generic

/-- _simplify_for_frontend from the source: empty args give the empty string
before the try; an exception inside the try falls back to stringifying and
space-joining all arguments.  The level parameter of the source is unused by
the body and omitted here. -/
def _simplify_for_frontend (args : List PyVal) : String :=
  if args.isEmpty then ""
  else
    match trySimplify args with
    | .ok s => s
    | .error _ => String.intercalate " " (args.map pyStr)

/-! ### Dispatcher and sinks (logger.py lines 39 to 133) -/

/-- The ANSI color table of the source (octal 033 is hex 1b). -/
def COLORS : List (String × String) :=
  [("red", "\x1b[91m"), ("green", "\x1b[92m"), ("yellow", "\x1b[93m"),
   ("blue", "\x1b[94m"), ("magenta", "\x1b[95m"), ("cyan", "\x1b[96m"),
   ("white", "\x1b[97m"), ("grey", "\x1b[90m"), ("reset", "\x1b[0m")]

/-- The module-global logger configuration: whether the socketio reference is
set, the two thresholds, and the log file path (Option.none models the Python
None; an empty path string is falsy in Python and also disables the file
sink). -/
structure LoggerState where
  socketio_conn : Bool
  console_level : String
  file_level : String
  log_file_path : Option String
deriving DecidableEq, Repr

/-- Which of the three external operations would currently succeed; a false
flag makes the corresponding call raise, as an unwritable file or a broken
stream would. -/
structure SinkWorld where
  emit_ok : Bool
  console_ok : Bool
  file_ok : Bool
deriving DecidableEq, Repr

/-- The world in which no external operation fails. -/
def okWorld : SinkWorld := ⟨true, true, true⟩

/-- Observable effects of one logging call, in order of execution. -/
inductive Eff where
  | push : String → String → String → Eff
  | console : String → Eff
  | file : String → String → Eff
deriving DecidableEq, Repr

def isPush : Eff → Bool
  | .push _ _ _ => true
  | _ => false

/-- The file block of color_print: guarded by the truthiness of the path and
by should_log against the file threshold; the scoped open or the write raises
when the world says the file is unwritable. -/
def fileStep (st : LoggerState) (w : SinkWorld) (level log_message : String) :
    List Eff × Option PyExn :=
  match st.log_file_path with
  | Option.none => ([], Option.none)
  | some p =>
    if p == "" then ([], Option.none)
    else
      match should_log level st.file_level with
      | Option.none => ([], some PyExn.valueErr)
      | some b =>
        if b then
          if w.file_ok then ([Eff.file p (log_message ++ "\n")], Option.none)
          else ([], some PyExn.ioErr)
        else ([], Option.none)

/-- The console block of color_print followed by the file block: the color
codes are looked up while the print argument is built (a missing color would
be a KeyError), then the write itself may raise. -/
def sinkSteps (st : LoggerState) (w : SinkWorld)
    (level color log_message endStr : String) : List Eff × Option PyExn :=
  match should_log level st.console_level with
  | Option.none => ([], some PyExn.valueErr)
  | some b =>
    if b then
      match List.lookup color COLORS, List.lookup "reset" COLORS with
      | some cc, some rc =>
        if w.console_ok then
          let r := fileStep st w level log_message
          (Eff.console (cc ++ log_message ++ rc ++ endStr) :: r.fst, r.snd)
        else ([], some PyExn.ioErr)
      | _, _ => ([], some PyExn.keyErr)
    else fileStep st w level log_message

/-- color_print from the source: compose the full message, then the push block
(severity in the forwarded set and a socketio reference present), then the
console block, then the file block, stopping at the first raised exception.
The returned trace holds the effects performed before any exception. -/
def color_print (st : LoggerState) (w : SinkWorld)
    (timestamp level color : String) (args : List PyVal)
    (sep endStr : String) : List Eff × Option PyExn :=
  let log_message :=
    timestamp ++ " [" ++ level ++ "] " ++
      String.intercalate sep (args.map pyStr)
  if (level == "INFO" || level == "SPECIAL") && st.socketio_conn then
    if w.emit_ok then
      let r := sinkSteps st w level color log_message endStr
      (Eff.push level (_simplify_for_frontend args) color :: r.fst, r.snd)
    else ([], some PyExn.ioErr)
  else sinkSteps st w level color log_message endStr

/-- The per-severity entry points of the source, each fixing level and color. -/
def trace (st : LoggerState) (w : SinkWorld) (ts : String) (args : List PyVal)
    (sep endStr : String) : List Eff × Option PyExn :=
  color_print st w ts "TRACE" "white" args sep endStr

def debug (st : LoggerState) (w : SinkWorld) (ts : String) (args : List PyVal)
    (sep endStr : String) : List Eff × Option PyExn :=
  color_print st w ts "DEBUG" "grey" args sep endStr

def info (st : LoggerState) (w : SinkWorld) (ts : String) (args : List PyVal)
    (sep endStr : String) : List Eff × Option PyExn :=
  color_print st w ts "INFO" "blue" args sep endStr

def warning (st : LoggerState) (w : SinkWorld) (ts : String) (args : List PyVal)
    (sep endStr : String) : List Eff × Option PyExn :=
  color_print st w ts "WARNING" "yellow" args sep endStr

def error (st : LoggerState) (w : SinkWorld) (ts : String) (args : List PyVal)
    (sep endStr : String) : List Eff × Option PyExn :=
  color_print st w ts "ERROR" "red" args sep endStr

def success (st : LoggerState) (w : SinkWorld) (ts : String) (args : List PyVal)
    (sep endStr : String) : List Eff × Option PyExn :=
  color_print st w ts "SUCCESS" "green" args sep endStr

def special (st : LoggerState) (w : SinkWorld) (ts : String) (args : List PyVal)
    (sep endStr : String) : List Eff × Option PyExn :=
  color_print st w ts "SPECIAL" "cyan" args sep endStr

/-- The push events of a call result, in trace order. -/
def pushesOf (r : List Eff × Option PyExn) : List Eff :=
  r.fst.filter isPush

/-- The console and file events of a call result, in trace order. -/
def sinksOf (r : List Eff × Option PyExn) : List Eff :=
  r.fst.filter (fun x => !isPush x)

/-- The full log line composed by color_print, before color wrapping. -/
def logMessageOf (timestamp level sep : String) (args : List PyVal) : String :=
  timestamp ++ " [" ++ level ++ "] " ++ String.intercalate sep (args.map pyStr)

/-- The label string the simplifier derives from the first argument. -/
def headStrOf : List PyVal → String
  | [] => ""
  | a :: _ => match a with | .str s => s | v => pyStr v

/-- A mapping whose single key happens to contain both tool-result markers,
so its Python str form triggers the tool branch when it is the first
argument. -/
def leakDict : List (String × PyVal) := [("【工具函数执行结果】k", PyVal.int 1)]

/-! ## Helper lemmas -/

theorem splitCharL_ne_nil (c : Char) (l : List Char) : splitCharL c l ≠ [] := by
  induction l with
  | nil => simp [splitCharL]
  | cons x xs ih =>
    simp only [splitCharL]
    split
    · simp
    · split
      · simp
      · simp

theorem pySplit_getLast?_isSome (c : Char) (s : String) :
    ∃ x, (pySplit c s).getLast? = some x := by
  have h : pySplit c s ≠ [] := by
    simp only [pySplit, ne_eq, List.map_eq_nil_iff]
    exact splitCharL_ne_nil c s.toList
  rcases Option.isSome_iff_exists.mp (List.getLast?_isSome.mpr h) with ⟨x, hx⟩
  exact ⟨x, hx⟩

/-- The try body of the simplifier never raises on a nonempty argument list:
every indexing it performs is guarded and a split result is never empty. -/
theorem trySimplify_isOk (a : PyVal) (rest : List PyVal) :
    ∃ s, trySimplify (a :: rest) = Except.ok s := by
  cases rest with
  | nil =>
    simp only [trySimplify, pyGet, List.get?]
    split
    · exact ⟨_, rfl⟩
    · split
      · simp
      · exact ⟨_, rfl⟩
  | cons b rest' =>
    simp only [trySimplify, pyGet, List.get?]
    split
    · split
      · exact ⟨_, rfl⟩
      · simp [List.length] at *
    · split
      · split
        · split
          · rcases pySplit_getLast?_isSome '。' (pyStr b) with ⟨x, hx⟩
            rw [hx]
            exact ⟨_, rfl⟩
          · exact ⟨_, rfl⟩
        · simp [List.length] at *
      · exact ⟨_, rfl⟩

/-- Bridge: a successful try body is the simplifier result. -/
theorem simplify_eq_ok (a : PyVal) (rest : List PyVal) (s : String)
    (h : trySimplify (a :: rest) = Except.ok s) :
    _simplify_for_frontend (a :: rest) = s := by
  simp [_simplify_for_frontend, h]

/-- On a single string argument the try body returns the string itself: the
tool branch appends the empty extracted value, the answer branch needs a
second argument, and the generic walk emits the string alone. -/
theorem trySimplify_single_str (s : String) :
    trySimplify [PyVal.str s] = Except.ok s := by
  have hg : String.intercalate " " (genericParts [PyVal.str s]) = s := rfl
  simp only [trySimplify, pyGet, List.get?]
  split
  · simp
  · split
    · simp [hg]
    · simp [hg]

theorem simplify_single_str (s : String) : _simplify_for_frontend [PyVal.str s] = s :=
  simplify_eq_ok _ _ _ (trySimplify_single_str s)

/-- The tool-result branch with a payload present. -/
theorem simplify_tool_branch (lbl : String) (p : PyVal) (rest : List PyVal)
    (hc : (containsSub "【工具函数" lbl && containsSub "执行结果】" lbl) = true) :
    _simplify_for_frontend (PyVal.str lbl :: p :: rest) =
      lbl ++ _extract_value_from_tool_result p := by
  apply simplify_eq_ok
  simp only [trySimplify, pyGet, List.get?, hc, if_true]
  have hlen : 1 < (PyVal.str lbl :: p :: rest).length := by simp
  simp [hlen]

/-- The atomic-answer branch with a payload present and the tool branch not
taken. -/
theorem simplify_answer_branch (lbl t : String) (rest : List PyVal)
    (hno : (containsSub "【工具函数" lbl && containsSub "执行结果】" lbl) = false)
    (hans : containsSub "【原子问题答案】" lbl = true) :
    _simplify_for_frontend (PyVal.str lbl :: PyVal.str t :: rest) =
      lbl ++ (if (containsSub "调用" t && containsSub "参数" t &&
                  containsSub "。" t) = true
              then pyStrip (((pySplit '。' t).getLast?).getD "") else t) := by
  apply simplify_eq_ok
  simp only [trySimplify, pyGet, List.get?, hno, hans, Bool.false_eq_true, if_false,
    if_true]
  have hlen : 1 < (PyVal.str lbl :: PyVal.str t :: rest).length := by simp
  rw [if_pos hlen]
  simp only [pyStr]
  split
  · rcases pySplit_getLast?_isSome '。' t with ⟨x, hx⟩
    rw [hx]
    simp_all
  · simp_all

/-- When neither label pattern fires, the simplifier is the generic walk. -/
theorem simplify_generic_branch (args : List PyVal)
    (h1 : (containsSub "【工具函数" (headStrOf args) &&
           containsSub "执行结果】" (headStrOf args)) = false)
    (h2 : containsSub "【原子问题答案】" (headStrOf args) = false) :
    _simplify_for_frontend args = String.intercalate " " (genericParts args) := by
  cases args with
  | nil => rfl
  | cons a rest =>
    apply simplify_eq_ok
    cases a <;>
      simp_all [trySimplify, pyGet, List.get?, headStrOf]

/-- Step equation of the generic walk: a label string paired with a list. -/
theorem gp_pair (s : String) (l : List PyVal) (rest : List PyVal) :
    genericParts (PyVal.str s :: PyVal.list l :: rest) =
      (s ++ join_list l) :: genericParts rest := rfl

/-- Step equation of the generic walk: a dict at the front is dropped. -/
theorem gp_dict_head (d : List (String × PyVal)) (l2 : List PyVal) :
    genericParts (PyVal.dict d :: l2) = genericParts l2 := rfl

/-- Step equation of the generic walk: a string not followed by a list stands
alone. -/
theorem gp_str_nonlist (s : String) (b : PyVal) (rest : List PyVal)
    (hb : ∀ l, b ≠ PyVal.list l) :
    genericParts (PyVal.str s :: b :: rest) = s :: genericParts (b :: rest) := by
  cases b with
  | list l => exact absurd rfl (hb l)
  | str s2 => rfl
  | int n => rfl
  | float r => rfl
  | bool b2 => rfl
  | null => rfl
  | dict d => rfl

/-- Step equation of the generic walk: any non-string head. -/
theorem gp_other (a : PyVal) (rest : List PyVal) (ha : ∀ s, a ≠ PyVal.str s) :
    genericParts (a :: rest) =
      if isScalarPy a then pyStr a :: genericParts rest else genericParts rest := by
  cases a with
  | str s => exact absurd rfl (ha s)
  | int n => rfl
  | float r => rfl
  | bool b => rfl
  | null => rfl
  | list l => rfl
  | dict d => rfl

/-- The generic walk never looks inside a dict standing at a top-level
position: its output is the same whatever that dict contains. -/
theorem genericParts_dict_aux : ∀ (n : Nat) (l1 : List PyVal), l1.length ≤ n →
    ∀ (d d' : List (String × PyVal)) (l2 : List PyVal),
      genericParts (l1 ++ PyVal.dict d :: l2) = genericParts (l1 ++ PyVal.dict d' :: l2) := by
  intro n
  induction n with
  | zero =>
    intro l1 h d d' l2
    have h0 : l1 = [] := List.length_eq_zero.mp (Nat.le_zero.mp h)
    subst h0
    simp [gp_dict_head]
  | succ n ih =>
    intro l1 h d d' l2
    cases l1 with
    | nil => simp [gp_dict_head]
    | cons x l1' =>
      by_cases hx : ∃ s, x = PyVal.str s
      · rcases hx with ⟨s, rfl⟩
        cases l1' with
        | nil =>
          rw [List.cons_append, List.nil_append, List.cons_append, List.nil_append,
            gp_str_nonlist s _ _ (fun l hl => by cases hl),
            gp_str_nonlist s _ _ (fun l hl => by cases hl), gp_dict_head, gp_dict_head]
        | cons y l1'' =>
          by_cases hy : ∃ l, y = PyVal.list l
          · rcases hy with ⟨l, rfl⟩
            rw [List.cons_append, List.cons_append, List.cons_append, List.cons_append,
              gp_pair, gp_pair]
            exact congrArg _ (ih l1'' (by simp at h; omega) d d' l2)
          · push_neg at hy
            rw [List.cons_append, List.cons_append, List.cons_append, List.cons_append,
              gp_str_nonlist s y _ (fun l => hy l),
              gp_str_nonlist s y _ (fun l => hy l),
              ← List.cons_append, ← List.cons_append]
            exact congrArg _ (ih (y :: l1'') (by simp at h ⊢; omega) d d' l2)
      · push_neg at hx
        rw [List.cons_append, List.cons_append, gp_other x _ (fun s => hx s),
          gp_other x _ (fun s => hx s)]
        have hih := ih l1' (by simp at h; omega) d d' l2
        split
        · exact congrArg _ hih
        · exact hih

/-- Final form of the content-independence of the generic walk. -/
theorem genericParts_dict_content_irrelevant (l1 : List PyVal)
    (d d' : List (String × PyVal)) (l2 : List PyVal) :
    genericParts (l1 ++ PyVal.dict d :: l2) = genericParts (l1 ++ PyVal.dict d' :: l2) :=
  genericParts_dict_aux l1.length l1 (Nat.le_refl _) d d' l2

/-- The file block only produces file effects. -/
theorem fileStep_all_sink (st : LoggerState) (w : SinkWorld) (lvl m : String) :
    (fileStep st w lvl m).fst.all (fun x => !isPush x) = true := by
  unfold fileStep
  split
  · rfl
  · split
    · rfl
    · split
      · rfl
      · split
        · split
          · rfl
          · rfl
        · rfl

/-- The console and file blocks only produce console and file effects. -/
theorem sinkSteps_all_sink (st : LoggerState) (w : SinkWorld) (lvl col m e : String) :
    (sinkSteps st w lvl col m e).fst.all (fun x => !isPush x) = true := by
  unfold sinkSteps
  split
  · rfl
  · split
    · split
      · split
        · simp only [List.all_cons, isPush, Bool.not_false, Bool.true_and]
          exact fileStep_all_sink st w lvl m
        · rfl
      · rfl
    · exact fileStep_all_sink st w lvl m

/-- In the world with no failures, a call is the push prefix followed by the
sink effects, with the sink outcome as exception status. -/
theorem color_print_okWorld (st : LoggerState) (ts lvl col : String)
    (args : List PyVal) (sep e : String) :
    color_print st okWorld ts lvl col args sep e =
      ((if (lvl == "INFO" || lvl == "SPECIAL") && st.socketio_conn
        then [Eff.push lvl (_simplify_for_frontend args) col] else []) ++
        (sinkSteps st okWorld lvl col (logMessageOf ts lvl sep args) e).fst,
       (sinkSteps st okWorld lvl col (logMessageOf ts lvl sep args) e).snd) := by
  unfold color_print okWorld logMessageOf
  split
  · simp
  · simp

/-- The push events of a call in the no-failure world: exactly one, carrying
the simplified message, precisely when the severity is forwarded and a
channel is configured. -/
theorem pushesOf_color_print_ok (st : LoggerState) (ts lvl col : String)
    (args : List PyVal) (sep e : String) :
    pushesOf (color_print st okWorld ts lvl col args sep e) =
      (if (lvl == "INFO" || lvl == "SPECIAL") && st.socketio_conn
       then [Eff.push lvl (_simplify_for_frontend args) col] else []) := by
  rw [pushesOf, color_print_okWorld]
  simp only [List.filter_append]
  have h2 : (sinkSteps st okWorld lvl col (logMessageOf ts lvl sep args) e).fst.filter
      isPush = [] := by
    rw [List.filter_eq_nil_iff]
    intro x hx
    have := List.all_eq_true.mp (sinkSteps_all_sink st okWorld lvl col
      (logMessageOf ts lvl sep args) e) x hx
    simp only [Bool.not_eq_eq_eq_not, Bool.not_true] at this
    simp [this]
  rw [h2]
  split
  · simp [isPush]
  · simp

/-- The sink events of a call in the no-failure world are the sink-step
effects. -/
theorem sinksOf_color_print_ok (st : LoggerState) (ts lvl col : String)
    (args : List PyVal) (sep e : String) :
    sinksOf (color_print st okWorld ts lvl col args sep e) =
      (sinkSteps st okWorld lvl col (logMessageOf ts lvl sep args) e).fst := by
  rw [sinksOf, color_print_okWorld]
  simp only [List.filter_append]
  have h1 : (sinkSteps st okWorld lvl col (logMessageOf ts lvl sep args) e).fst.filter
      (fun x => !isPush x) =
      (sinkSteps st okWorld lvl col (logMessageOf ts lvl sep args) e).fst := by
    rw [List.filter_eq_self]
    intro x hx
    exact List.all_eq_true.mp (sinkSteps_all_sink st okWorld lvl col
      (logMessageOf ts lvl sep args) e) x hx
  rw [h1]
  split
  · simp [isPush]
  · simp

/-- The console and file blocks never read the socketio reference. -/
theorem sinkSteps_socketio_irrelevant (b b' : Bool) (cl fl : String)
    (pa : Option String) (w : SinkWorld) (lvl col m e : String) :
    sinkSteps (LoggerState.mk b cl fl pa) w lvl col m e =
      sinkSteps (LoggerState.mk b' cl fl pa) w lvl col m e := rfl

/-- The source's suffix scan agrees with the spec's findSome? formulation. -/
theorem findSuffixVal_eq_findSome? (sfxs : List String) (d : List (String × PyVal)) :
    (findSuffixVal sfxs d).map pyStr =
      sfxs.findSome? (fun sfx =>
        (d.find? (fun kv => pyEndsWith sfx kv.1)).map (fun kv => pyStr kv.2)) := by
  induction sfxs with
  | nil => rfl
  | cons sfx rest ih =>
    simp only [findSuffixVal, List.findSome?_cons]
    cases h : d.find? (fun kv => pyEndsWith sfx kv.1) with
    | none => simpa [h] using ih
    | some kv => simp [h]

/-- The part of the source extractor after the json step agrees with the
spec's step list on every parsed value. -/
theorem extractFromData_eq_spec (v : PyVal) : extractFromData v = specOnParsed v := by
  cases v with
  | str s => rfl
  | int n => rfl
  | float r => rfl
  | bool b => rfl
  | null => rfl
  | list l => rfl
  | dict d0 =>
    simp only [extractFromData, specOnParsed]
    generalize (match List.lookup "output" d0 with
      | some (PyVal.dict o) => o
      | _ => d0) = d
    cases hr : List.lookup "result" d with
    | some r =>
      cases r with
      | dict rm =>
        simp only [specResultRule, hr, Option.map_some']
        cases hb : List.lookup "by_seconds" rm with
        | some v => simp [Option.or, hb]
        | none =>
          cases hs : List.lookup "seconds" rm with
          | some v => simp [Option.or, hs]
          | none =>
            cases hf : rm.find? (fun kv => isScalarPy kv.2) with
            | some kv => simp [Option.or, hf]
            | none => simp [Option.or, hf]
      | str s => simp [specResultRule, hr, Option.or]
      | int n => simp [specResultRule, hr, Option.or]
      | float r2 => simp [specResultRule, hr, Option.or]
      | bool b => simp [specResultRule, hr, Option.or]
      | null => simp [specResultRule, hr, Option.or]
      | list l => simp [specResultRule, hr, Option.or]
    | none =>
      simp only [specResultRule, hr, Option.map_none', Option.none_or,
        specAggregateRule]
      rw [← findSuffixVal_eq_findSome?]
      cases hs : findSuffixVal SUFFIXES d with
      | some v => simp [hs]
      | none =>
        simp only [Option.map_none', Option.none_or]
        match d with
        | [] => rfl
        | [kv] => rfl
        | kv1 :: kv2 :: rest => rfl

/-- The source extractor agrees with the spec's step list on every payload. -/
theorem extract_eq_spec (payload : PyVal) :
    _extract_value_from_tool_result payload = valueExtractorSpec payload := by
  cases payload with
  | str s =>
    simp only [_extract_value_from_tool_result, valueExtractorSpec]
    cases h : json_loads s with
    | none => rfl
    | some v => exact extractFromData_eq_spec v
  | int n =>
    simp only [_extract_value_from_tool_result, valueExtractorSpec]
    exact extractFromData_eq_spec _
  | float r =>
    simp only [_extract_value_from_tool_result, valueExtractorSpec]
    exact extractFromData_eq_spec _
  | bool b =>
    simp only [_extract_value_from_tool_result, valueExtractorSpec]
    exact extractFromData_eq_spec _
  | null =>
    simp only [_extract_value_from_tool_result, valueExtractorSpec]
    exact extractFromData_eq_spec _
  | list l =>
    simp only [_extract_value_from_tool_result, valueExtractorSpec]
    exact extractFromData_eq_spec _
  | dict d =>
    simp only [_extract_value_from_tool_result, valueExtractorSpec]
    exact extractFromData_eq_spec _

theorem lookup_reset_colors : List.lookup "reset" COLORS = some "\x1b[0m" := rfl

theorem okWorld_emit : okWorld.emit_ok = true := rfl

theorem okWorld_console : okWorld.console_ok = true := rfl

theorem okWorld_file : okWorld.file_ok = true := rfl

/-- The file block in the no-failure world, all guards resolved. -/
theorem fileStep_ok_spec (st : LoggerState) (lvl m p : String) (fb : Bool)
    (hp : st.log_file_path = some p) (hpne : (p == "") = false)
    (hf : should_log lvl st.file_level = some fb) :
    fileStep st okWorld lvl m =
      ((if fb then [Eff.file p (m ++ "\n")] else []), Option.none) := by
  unfold fileStep
  simp only [hp, hpne, hf, okWorld_file]
  cases fb <;> simp

/-- The console and file blocks in the no-failure world, all guards
resolved. -/
theorem sinkSteps_ok_spec (st : LoggerState) (lvl col m e p cc : String)
    (cb fb : Bool)
    (hc : should_log lvl st.console_level = some cb)
    (hcol : List.lookup col COLORS = some cc)
    (hp : st.log_file_path = some p) (hpne : (p == "") = false)
    (hf : should_log lvl st.file_level = some fb) :
    sinkSteps st okWorld lvl col m e =
      ((if cb then [Eff.console (cc ++ m ++ "\x1b[0m" ++ e)] else []) ++
        (if fb then [Eff.file p (m ++ "\n")] else []), Option.none) := by
  unfold sinkSteps
  simp only [hc, hcol, lookup_reset_colors, okWorld_console]
  cases cb with
  | true =>
    simp only [if_true]
    rw [fileStep_ok_spec st lvl m p fb hp hpne hf]
    simp
  | false =>
    rw [fileStep_ok_spec st lvl m p fb hp hpne hf]
    simp

/-- When the emit succeeds (or is skipped), the exception status of a call is
that of the sink steps. -/
theorem color_print_snd (st : LoggerState) (w : SinkWorld) (ts lvl col : String)
    (args : List PyVal) (sep e : String) (hemit : w.emit_ok = true) :
    (color_print st w ts lvl col args sep e).snd =
      (sinkSteps st w lvl col (logMessageOf ts lvl sep args) e).snd := by
  unfold color_print
  split
  · simp [hemit, logMessageOf]
  · rfl

/-- An unwritable log file makes the file block raise. -/
theorem fileStep_fail (st : LoggerState) (w : SinkWorld) (lvl m p : String)
    (hp : st.log_file_path = some p) (hpne : (p == "") = false)
    (hf : should_log lvl st.file_level = some true)
    (hw : w.file_ok = false) :
    fileStep st w lvl m = ([], some PyExn.ioErr) := by
  unfold fileStep
  simp [hp, hpne, hf, hw]

/-- A failing file block surfaces as the exception status of the sink steps
when the console block succeeds or is skipped. -/
theorem sinkSteps_snd_file_fail (st : LoggerState) (w : SinkWorld)
    (lvl col m e cc : String) (cb : Bool)
    (hc : should_log lvl st.console_level = some cb)
    (hcol : List.lookup col COLORS = some cc)
    (hcok : w.console_ok = true)
    (hfail : fileStep st w lvl m = ([], some PyExn.ioErr)) :
    (sinkSteps st w lvl col m e).snd = some PyExn.ioErr := by
  unfold sinkSteps
  simp only [hc, hcol, lookup_reset_colors, hcok]
  cases cb <;> simp [hfail]

/-- A failing console write surfaces as the exception status of the sink
steps. -/
theorem sinkSteps_snd_console_fail (st : LoggerState) (w : SinkWorld)
    (lvl col m e cc : String)
    (hc : should_log lvl st.console_level = some true)
    (hcol : List.lookup col COLORS = some cc)
    (hcok : w.console_ok = false) :
    (sinkSteps st w lvl col m e).snd = some PyExn.ioErr := by
  unfold sinkSteps
  simp [hc, hcol, lookup_reset_colors, hcok]

/-! ## Claim theorems -/

/-- C1, counterexample: color_print has no handler around its sink writes,
so with the log file unwritable and the file sink active the logging call
raises instead of completing as a no-op for that sink. -/
theorem claim_c1_counterexample :
    (color_print (LoggerState.mk false "DEBUG" "TRACE"
        (some "devlop_output/logs/x.log"))
      (SinkWorld.mk true true false) "2025-01-01 00:00:00.000" "INFO" "blue"
      [PyVal.str "hi"] " " "\n").snd = some PyExn.ioErr ∧
    (color_print (LoggerState.mk false "DEBUG" "TRACE"
        (some "devlop_output/logs/x.log"))
      (SinkWorld.mk true true false) "2025-01-01 00:00:00.000" "INFO" "blue"
      [PyVal.str "hi"] " " "\n").snd ≠ Option.none :=
  ⟨rfl, by decide⟩

/-- C1, amended: a failure to open or write the log file, or to write to the
console, when that sink is active for the call, propagates the exception past
the logging call; the failing sink is not a no-op. -/
theorem claim_c1_sink_failure_propagates :
    (∀ (st : LoggerState) (w : SinkWorld) (ts lvl col : String)
        (args : List PyVal) (sep e p cc : String) (cb : Bool),
      w.emit_ok = true → w.console_ok = true → w.file_ok = false →
      should_log lvl st.console_level = some cb →
      List.lookup col COLORS = some cc →
      st.log_file_path = some p → (p == "") = false →
      should_log lvl st.file_level = some true →
      (color_print st w ts lvl col args sep e).snd = some PyExn.ioErr) ∧
    (∀ (st : LoggerState) (w : SinkWorld) (ts lvl col : String)
        (args : List PyVal) (sep e cc : String),
      w.emit_ok = true → w.console_ok = false →
      should_log lvl st.console_level = some true →
      List.lookup col COLORS = some cc →
      (color_print st w ts lvl col args sep e).snd = some PyExn.ioErr) := by
  constructor
  · intro st w ts lvl col args sep e p cc cb hemit hcok hffail hc hcol hp hpne hf
    rw [color_print_snd st w ts lvl col args sep e hemit]
    exact sinkSteps_snd_file_fail st w lvl col _ e cc cb hc hcol hcok
      (fileStep_fail st w lvl _ p hp hpne hf hffail)
  · intro st w ts lvl col args sep e cc hemit hcok hc hcol
    rw [color_print_snd st w ts lvl col args sep e hemit]
    exact sinkSteps_snd_console_fail st w lvl col _ e cc hc hcol hcok

/-- C1, witness for the amended theorem at a concrete input. -/
theorem claim_c1_witness :
    (color_print (LoggerState.mk true "INFO" "TRACE" (some "a.log"))
      (SinkWorld.mk true true false) "t" "SPECIAL" "cyan" [PyVal.int 5]
      " " "\n").snd = some PyExn.ioErr :=
  claim_c1_sink_failure_propagates.1
    (LoggerState.mk true "INFO" "TRACE" (some "a.log"))
    (SinkWorld.mk true true false) "t" "SPECIAL" "cyan" [PyVal.int 5] " " "\n"
    "a.log" "\x1b[96m" true rfl rfl rfl rfl rfl rfl rfl rfl

/-- C2: in the no-failure world a call's trace is a push prefix followed by
sink-only effects, the prefix holding exactly one event with the simplified
message precisely when the severity is INFO or SPECIAL and a channel is
configured; the push events do not depend on the console and file
thresholds; and the two reference calls produce exactly the specified event
and no event. -/
theorem claim_c2_push_events :
    (∀ (st : LoggerState) (ts lvl col : String) (args : List PyVal)
        (sep e : String),
      ∃ sinks : List Eff,
        (color_print st okWorld ts lvl col args sep e).fst =
          (if (lvl == "INFO" || lvl == "SPECIAL") && st.socketio_conn
           then [Eff.push lvl (_simplify_for_frontend args) col] else []) ++ sinks ∧
        sinks.all (fun x => !isPush x) = true) ∧
    (∀ (sc : Bool) (cl fl cl' fl' : String) (pa : Option String)
        (ts lvl col : String) (args : List PyVal) (sep e : String),
      pushesOf (color_print (LoggerState.mk sc cl fl pa) okWorld
          ts lvl col args sep e) =
        pushesOf (color_print (LoggerState.mk sc cl' fl' pa) okWorld
          ts lvl col args sep e)) ∧
    pushesOf (info (LoggerState.mk true "DEBUG" "TRACE" Option.none) okWorld "ts"
      [PyVal.str "【工具函数duration_calculator执行结果】",
       PyVal.str "\x7b\"result\":\x7b\"by_seconds\":1149.0\x7d\x7d"] " " "\n") =
      [Eff.push "INFO" "【工具函数duration_calculator执行结果】1149.0" "blue"] ∧
    pushesOf (debug (LoggerState.mk true "DEBUG" "TRACE" Option.none) okWorld "ts"
      [PyVal.str "【工具函数duration_calculator执行结果】",
       PyVal.str "\x7b\"result\":\x7b\"by_seconds\":1149.0\x7d\x7d"] " " "\n") =
      [] := by
  refine ⟨?_, ?_, rfl, rfl⟩
  · intro st ts lvl col args sep e
    refine ⟨(sinkSteps st okWorld lvl col (logMessageOf ts lvl sep args) e).fst,
      ?_, sinkSteps_all_sink st okWorld lvl col (logMessageOf ts lvl sep args) e⟩
    rw [color_print_okWorld]
  · intro sc cl fl cl' fl' pa ts lvl col args sep e
    rw [pushesOf_color_print_ok, pushesOf_color_print_ok]

/-- C3: the value extractor applies the fixed priority of the spec, proved
as agreement with a step-by-step restatement of the spec list on every
payload, and returns the specified strings on the three reference
payloads. -/
theorem claim_c3_extractor_priority :
    (∀ v, _extract_value_from_tool_result v = valueExtractorSpec v) ∧
    _extract_value_from_tool_result (PyVal.dict [("output", PyVal.dict [("result",
      PyVal.dict [("by_seconds", PyVal.float "1149.0"),
        ("other_unit", PyVal.float "19.15")])])]) = "1149.0" ∧
    _extract_value_from_tool_result (PyVal.dict [("rows_sum", PyVal.int 42),
      ("label", PyVal.str "x")]) = "42" ∧
    _extract_value_from_tool_result (PyVal.dict [("value", PyVal.str "ok")]) =
      "ok" :=
  ⟨extract_eq_spec, rfl, rfl, rfl⟩

/-- C4, counterexample: a first argument containing the answer marker
together with both tool-result markers is routed to the tool branch, so the
simplified message keeps the whole answer text, while the claim predicts the
label followed by the tail after the last terminator, which is empty here. -/
theorem claim_c4_counterexample :
    _simplify_for_frontend [PyVal.str "【工具函数执行结果】【原子问题答案】",
      PyVal.str "调用search参数\x7bq\x7d。最终答案是42。"] =
      "【工具函数执行结果】【原子问题答案】调用search参数\x7bq\x7d。最终答案是42。" ∧
    pyStrip (((pySplit '。'
      "调用search参数\x7bq\x7d。最终答案是42。").getLast?).getD "") = "" ∧
    ("【工具函数执行结果】【原子问题答案】调用search参数\x7bq\x7d。最终答案是42。" : String) ≠
      "【工具函数执行结果】【原子问题答案】" ++ "" :=
  ⟨rfl, rfl, by decide⟩

/-- C4, amended: for calls whose first argument contains the answer marker
but not both tool-result markers, with a second argument present: when the
answer text contains the call marker, the parameters marker and the
terminator, the message is the label followed by the whitespace-trimmed
substring after the last terminator (possibly empty, without raising);
otherwise the label followed by the text verbatim. -/
theorem claim_c4_answer_trimming (lbl t : String) (rest : List PyVal)
    (hans : containsSub "【原子问题答案】" lbl = true)
    (hno : (containsSub "【工具函数" lbl && containsSub "执行结果】" lbl) = false) :
    _simplify_for_frontend (PyVal.str lbl :: PyVal.str t :: rest) =
      lbl ++ (if (containsSub "调用" t && containsSub "参数" t &&
                  containsSub "。" t) = true
              then pyStrip (((pySplit '。' t).getLast?).getD "") else t) :=
  simplify_answer_branch lbl t rest hno hans

/-- C4, witness: the reference answer text reduces to the bare label. -/
theorem claim_c4_witness :
    _simplify_for_frontend [PyVal.str "【原子问题答案】",
      PyVal.str "调用search参数\x7bq\x7d。最终答案是42。"] = "【原子问题答案】" := by
  rw [claim_c4_answer_trimming "【原子问题答案】"
    "调用search参数\x7bq\x7d。最终答案是42。" [] (by decide) (by decide)]
  rfl

/-- C5, counterexample: a bare mapping as the only argument, not paired as
any payload, leaks its full serialization when its own string form contains
the tool-result markers. -/
theorem claim_c5_counterexample :
    _simplify_for_frontend [PyVal.dict leakDict] = pyStr (PyVal.dict leakDict) ∧
    containsSub (pyStr (PyVal.dict leakDict))
      (_simplify_for_frontend [PyVal.dict leakDict]) = true :=
  ⟨rfl, rfl⟩

/-- C5, amended: the generic walk drops an unpaired non-scalar structured
value: its output never depends on the content of a mapping standing at a
top-level position; and whenever the first argument triggers neither label
pattern, the simplifier output is exactly the generic walk, so such a
mapping cannot leak into it. -/
theorem claim_c5_anti_leak :
    (∀ (l1 : List PyVal) (d d' : List (String × PyVal)) (l2 : List PyVal),
      genericParts (l1 ++ PyVal.dict d :: l2) =
        genericParts (l1 ++ PyVal.dict d' :: l2)) ∧
    (∀ args : List PyVal,
      (containsSub "【工具函数" (headStrOf args) &&
        containsSub "执行结果】" (headStrOf args)) = false →
      containsSub "【原子问题答案】" (headStrOf args) = false →
      _simplify_for_frontend args = String.intercalate " " (genericParts args)) :=
  ⟨genericParts_dict_content_irrelevant, simplify_generic_branch⟩

/-- C5, witness: a bare mapping after a plain label is dropped. -/
theorem claim_c5_witness :
    _simplify_for_frontend [PyVal.str "x", PyVal.dict [("a", PyVal.int 1)]] =
      String.intercalate " "
        (genericParts [PyVal.str "x", PyVal.dict [("a", PyVal.int 1)]]) :=
  claim_c5_anti_leak.2 [PyVal.str "x", PyVal.dict [("a", PyVal.int 1)]]
    (by decide) (by decide)

/-- C6: the try body of the simplifier succeeds on every nonempty argument
list and its value is the returned string, so no exception reaches the
caller and the stringify-and-join fallback never has to engage; and a string
payload that fails structured parsing is returned unchanged by the value
extractor. -/
theorem claim_c6_never_raises :
    (∀ args : List PyVal, args ≠ [] → ∃ s, trySimplify args = Except.ok s ∧
      _simplify_for_frontend args = s) ∧
    (∀ s, json_loads s = Option.none →
      _extract_value_from_tool_result (PyVal.str s) = s) := by
  constructor
  · intro args hne
    cases args with
    | nil => exact absurd rfl hne
    | cons a rest =>
      rcases trySimplify_isOk a rest with ⟨s, hs⟩
      exact ⟨s, hs, simplify_eq_ok a rest s hs⟩
  · intro s h
    simp [_extract_value_from_tool_result, h]

/-- C6, witness at concrete inputs. -/
theorem claim_c6_witness :
    (∃ s, trySimplify [PyVal.str "hi"] = Except.ok s ∧
      _simplify_for_frontend [PyVal.str "hi"] = s) ∧
    _extract_value_from_tool_result (PyVal.str "ok") = "ok" :=
  ⟨claim_c6_never_raises.1 [PyVal.str "hi"] (List.cons_ne_nil _ _),
   claim_c6_never_raises.2 "ok" rfl⟩

/-- C7: over the seven severity names, should_log a b holds exactly when the
position of a in the fixed ordering is at least the position of b; in
particular should_log ERROR INFO is true and should_log TRACE DEBUG is
false. -/
theorem claim_c7_should_log_rank (a b : String)
    (ha : a ∈ LEVELS) (hb : b ∈ LEVELS) :
    (should_log a b = some true ↔ levelRank b ≤ levelRank a) ∧
    should_log "ERROR" "INFO" = some true ∧
    should_log "TRACE" "DEBUG" = some false := by
  refine ⟨?_, rfl, rfl⟩
  simp only [LEVELS, List.mem_cons, List.not_mem_nil, or_false] at ha hb
  rcases ha with rfl | rfl | rfl | rfl | rfl | rfl | rfl <;>
    rcases hb with rfl | rfl | rfl | rfl | rfl | rfl | rfl <;> decide

/-- C7, witness at concrete severities. -/
theorem claim_c7_witness :
    should_log "ERROR" "INFO" = some true ∧
    (should_log "WARNING" "ERROR" = some true ↔
      levelRank "ERROR" ≤ levelRank "WARNING") :=
  ⟨(claim_c7_should_log_rank "ERROR" "INFO" (by decide) (by decide)).2.1,
   (claim_c7_should_log_rank "WARNING" "ERROR" (by decide) (by decide)).1⟩

/-- C8: feeding any simplifier output back in as a single string argument
returns it unchanged, by the pass-through scalar rule. -/
theorem claim_c8_idempotent (args : List PyVal) :
    _simplify_for_frontend [PyVal.str (_simplify_for_frontend args)] =
      _simplify_for_frontend args :=
  simplify_single_str _

/-- C9: the console and file sinks receive the full original message, the
timestamp plus the bracketed severity tag plus the raw arguments joined by
the separator (the console copy wrapped in the color codes and the end
string, the file copy newline-terminated); the sink effects are identical
whether or not a push channel is configured, and the simplified message
appears in neither. -/
theorem claim_c9_sinks_full_message (st : LoggerState) (ts lvl col : String)
    (args : List PyVal) (sep e : String) (cb fb : Bool) (cc p : String)
    (hc : should_log lvl st.console_level = some cb)
    (hcol : List.lookup col COLORS = some cc)
    (hp : st.log_file_path = some p) (hpne : (p == "") = false)
    (hf : should_log lvl st.file_level = some fb) :
    sinksOf (color_print st okWorld ts lvl col args sep e) =
      (if cb then [Eff.console (cc ++ logMessageOf ts lvl sep args ++
        "\x1b[0m" ++ e)] else []) ++
      (if fb then [Eff.file p (logMessageOf ts lvl sep args ++ "\n")] else []) ∧
    (∀ (b b' : Bool) (cl fl : String) (pa : Option String),
      sinksOf (color_print (LoggerState.mk b cl fl pa) okWorld
          ts lvl col args sep e) =
        sinksOf (color_print (LoggerState.mk b' cl fl pa) okWorld
          ts lvl col args sep e)) := by
  constructor
  · rw [sinksOf_color_print_ok, sinkSteps_ok_spec st lvl col
      (logMessageOf ts lvl sep args) e p cc cb fb hc hcol hp hpne hf]
  · intro b b' cl fl pa
    rw [sinksOf_color_print_ok, sinksOf_color_print_ok]
    exact congrArg Prod.fst (sinkSteps_socketio_irrelevant b b' cl fl pa
      okWorld lvl col (logMessageOf ts lvl sep args) e)

/-- C9, witness at a concrete configuration. -/
theorem claim_c9_witness :
    sinksOf (color_print (LoggerState.mk true "DEBUG" "TRACE" (some "log.txt"))
      okWorld "ts" "INFO" "blue" [PyVal.str "hi"] " " "\n") =
      [Eff.console ("\x1b[94m" ++ logMessageOf "ts" "INFO" " " [PyVal.str "hi"]
        ++ "\x1b[0m" ++ "\n"),
       Eff.file "log.txt" (logMessageOf "ts" "INFO" " " [PyVal.str "hi"] ++ "\n")] := by
  have h := claim_c9_sinks_full_message
    (LoggerState.mk true "DEBUG" "TRACE" (some "log.txt")) "ts" "INFO" "blue"
    [PyVal.str "hi"] " " "\n" true true "\x1b[94m" "log.txt" rfl rfl rfl rfl rfl
  simpa using h.1

/-- C10: a single string argument containing both tool-result markers is
returned unchanged, the extracted value defaulting to the empty string. -/
theorem claim_c10_tool_single_arg (s : String)
    (h1 : containsSub "【工具函数" s = true)
    (h2 : containsSub "执行结果】" s = true) :
    _simplify_for_frontend [PyVal.str s] = s :=
  simplify_single_str s

/-- C10, witness at a concrete marker-bearing label. -/
theorem claim_c10_witness :
    _simplify_for_frontend [PyVal.str "【工具函数f执行结果】"] = "【工具函数f执行结果】" :=
  claim_c10_tool_single_arg "【工具函数f执行结果】" (by decide) (by decide)

end AIC
